import Mathlib

/-!
Shallow embedding of the order/stock consistency engine of the
`django-resturant` repository (app `project/order`): the data model from
`models.py`, the serializer validation and commit logic from
`serializers.py`, and the write surface exposed by `views.py`.

Fixed-point decimal amounts (unit prices, order totals) are modelled in
cents as integers; database rows are records in lists.
-/

/-- Row of `models.Item`: name, unit price (cents) and the non-negative
stock quantity (`PositiveIntegerField`). -/
structure Item where
  id : Nat
  name : String
  price : Int
  quantity : Nat
  deriving DecidableEq, Repr

/-- Row of `models.Order`: customer fields, the nullable frozen
`total_price` (cents) and the `status` string (default `new`).
`created_at` is not modelled: it is never read by the engine. -/
structure OrderRec where
  id : Nat
  customer_name : String
  phone : String
  address : String
  total_price : Option Int
  status : String
  deriving DecidableEq, Repr

/-- Row of `models.OrderItem`: a line item tying an order to an item with
a count. -/
structure OrderItem where
  id : Nat
  order_id : Nat
  item_id : Nat
  count : Int
  deriving DecidableEq, Repr

/-- Persisted database state: the three tables. -/
structure DB where
  items : List Item
  orders : List OrderRec
  order_items : List OrderItem
  deriving DecidableEq, Repr

/-- Lookup of an `Item` by primary key (`Item.objects.filter(id__in=...)`
restricted to one id). -/
def findItem (db : DB) (iid : Nat) : Option Item :=
  db.items.find? (fun it => it.id == iid)

/-- Lookup of an `Order` by primary key. -/
def findOrder (db : DB) (oid : Nat) : Option OrderRec :=
  db.orders.find? (fun o => o.id == oid)

/-- Aggregate `consumed_count = Sum("order_items__count")` with
`Coalesce(..., 0)`: total persisted count for an item across the line
items of all orders. -/
def consumed (db : DB) (iid : Nat) : Int :=
  ((db.order_items.filter (fun li => li.item_id == iid)).map (fun li => li.count)).sum

/-- Annotation `remaining_quantity = F("quantity") - Coalesce(F("consumed_count"), 0)`
from `validate_order_items`. -/
def remainingQuantity (db : DB) (it : Item) : Int :=
  (it.quantity : Int) - consumed db it.id

/-- Rows matched by the carve-back lookup
`self.instance.order_items.get(order_id=..., item_id=...)`:
the line items persisted for one (order, item) pair. -/
def ownLines (db : DB) (oid iid : Nat) : List OrderItem :=
  db.order_items.filter (fun li => li.order_id == oid && li.item_id == iid)

/-- Total persisted count of one item on one order. -/
def ownCount (db : DB) (oid iid : Nat) : Int :=
  ((ownLines db oid iid).map (fun li => li.count)).sum

/-- One entry of the `order_items` request list: `item_id` and `count`. -/
structure ReqLine where
  item_id : Nat
  count : Int
  deriving DecidableEq, Repr

/-- Outcome of a failed request: a DRF `ValidationError` carrying a
message, the `NotFound` of a missing order, or the uncaught
`MultipleObjectsReturned` escaping `validate_order_items`. -/
inductive VErr where
  | validationError (msg : String)
  | notFound
  | multipleObjectsReturned
  deriving DecidableEq, Repr

/-- Computation of `current_count` in `validate_order_items`: 0 on the
create path; on the update path the single-row lookup
`self.instance.order_items.get(order_id=..., item_id=...)`, whose
`DoesNotExist` is caught and treated as 0 while two or more matching rows
escape as an uncaught `MultipleObjectsReturned`. -/
def lookupOwn (db : DB) (oid iid : Nat) : Except VErr Int :=
  match ownLines db oid iid with
  | [] => Except.ok 0
  | [li] => Except.ok li.count
  | _ => Except.error VErr.multipleObjectsReturned

/-- Value of `current_count` for a request: 0 on the create path, the
lookup above on the update path. -/
def currentCount (db : DB) (inst : Option Nat) (iid : Nat) : Except VErr Int :=
  match inst with
  | none => Except.ok 0
  | some oid => lookupOwn db oid iid

/-- One iteration of the loop in `OrderSerializer.validate_order_items`:
membership in the per-call snapshot, then the `current_count` lookup, then
the stock comparison `remaining_quantity + current_count < requested`. -/
def checkStockLine (db : DB) (inst : Option Nat) (l : ReqLine) : Except VErr Unit :=
  match findItem db l.item_id with
  | none =>
      Except.error (VErr.validationError
        ("Item with ID " ++ toString l.item_id ++ " does not exist."))
  | some it =>
      match currentCount db inst l.item_id with
      | Except.error e => Except.error e
      | Except.ok cur =>
          if remainingQuantity db it + cur < l.count then
            Except.error (VErr.validationError
              ("Not enough stock for item " ++ it.name ++ "."))
          else Except.ok ()

/-- Loop of `OrderSerializer.validate_order_items`: every requested line
is checked against the snapshot taken once per call; the first failure
aborts the whole validation. -/
def validateOrderItems (db : DB) (inst : Option Nat) : List ReqLine → Except VErr Unit
  | [] => Except.ok ()
  | l :: rest =>
      match checkStockLine db inst l with
      | Except.error e => Except.error e
      | Except.ok _ => validateOrderItems db inst rest

/-- Per-line validation performed by `OrderItemSerializer` before
`validate_order_items` runs: `item_id` must reference an existing `Item`
(`PrimaryKeyRelatedField` over `Item.objects.all()`), `validate_count`
rejects a non-positive count, and the model field bounds the count above
by 32767 (`PositiveSmallIntegerField`). -/
def checkChildLine (db : DB) (l : ReqLine) : Except VErr Unit :=
  if (findItem db l.item_id).isNone then
    Except.error (VErr.validationError ("Invalid pk - object does not exist."))
  else if l.count ≤ 0 then
    Except.error (VErr.validationError
      ("Count must be a positive integer. Received: " ++ toString l.count))
  else if 32767 < l.count then
    Except.error (VErr.validationError
      ("Ensure this value is less than or equal to 32767."))
  else Except.ok ()

/-- Child validation over the whole list of request lines. -/
def checkChildLines (db : DB) : List ReqLine → Except VErr Unit
  | [] => Except.ok ()
  | l :: rest =>
      match checkChildLine db l with
      | Except.error e => Except.error e
      | Except.ok _ => checkChildLines db rest

/-- Shape of the `order_items` field in a request body: `none` when the
field is absent, `some none` for JSON null, `some (some ls)` for a list. -/
abbrev OrderItemsField := Option (Option (List ReqLine))

/-- Full DRF validation of the `order_items` field of `OrderSerializer`:
an absent field is allowed (`required=False`) and yields no value; null is
rejected (`allow_null` defaults to false); a list — the empty list
included, since `allow_empty` defaults to true — passes per-line child
validation and then `validate_order_items`. -/
def runOrderItemsField (db : DB) (inst : Option Nat) (f : OrderItemsField) :
    Except VErr (Option (List ReqLine)) :=
  match f with
  | none => Except.ok none
  | some none => Except.error (VErr.validationError ("This field may not be null."))
  | some (some ls) =>
      match checkChildLines db ls with
      | Except.error e => Except.error e
      | Except.ok _ =>
          match validateOrderItems db inst ls with
          | Except.error e => Except.error e
          | Except.ok _ => Except.ok (some ls)

/-- Validation of `customer_name`: required `CharField(max_length=100)`,
blank rejected. -/
def validCustomerName (s : String) : Bool :=
  0 < s.length && s.length ≤ 100

/-- Validation of `phone`: required `CharField(max_length=20)`, blank
rejected. -/
def validPhone (s : String) : Bool :=
  0 < s.length && s.length ≤ 20

/-- Validation of `address`: required `TextField`, blank rejected. -/
def validAddress (s : String) : Bool :=
  0 < s.length

/-- Body of a create request. `status` and `total_price` can be supplied
by the caller but are listed in `read_only_fields` and never reach
`validated_data`. -/
structure CreateReq where
  customer_name : String
  phone : String
  address : String
  order_items : OrderItemsField
  status : Option String
  total_price : Option Int
  deriving DecidableEq, Repr

/-- Fresh primary key for a new order. -/
def freshOrderId (db : DB) : Nat :=
  ((db.orders.map (fun o => o.id)).foldr max 0) + 1

/-- Fresh primary key for the first new line item. -/
def freshLineId (db : DB) : Nat :=
  ((db.order_items.map (fun li => li.id)).foldr max 0) + 1

/-- Unit price `order_item.item.price` as read at commit time. -/
def itemPrice (db : DB) (iid : Nat) : Int :=
  match findItem db iid with
  | some it => it.price
  | none => 0

/-- Accumulated `total_price`: sum of `item.price * count` over the
request lines, prices read from the current catalog. -/
def linesTotal (db : DB) (ls : List ReqLine) : Int :=
  (ls.map (fun l => itemPrice db l.item_id * l.count)).sum

/-- Rows created by `OrderItem.objects.create(order=..., **item_data)`,
one per request line in order, with sequential fresh ids. -/
def mkLineItems (oid base : Nat) : List ReqLine → List OrderItem
  | [] => []
  | l :: rest =>
      { id := base, order_id := oid, item_id := l.item_id, count := l.count }
        :: mkLineItems oid (base + 1) rest

/-- Commit path of `OrderSerializer.create`: persist the order with
`status="new"`, create each line item, accumulate and store the frozen
`total_price`. -/
def commitCreate (db : DB) (r : CreateReq) (ls : List ReqLine) : DB :=
  { db with
      orders :=
        { id := freshOrderId db, customer_name := r.customer_name,
          phone := r.phone, address := r.address,
          total_price := some (linesTotal db ls), status := "new" } :: db.orders,
      order_items := db.order_items ++ mkLineItems (freshOrderId db) (freshLineId db) ls }

/-- Endpoint `POST /orders` through `OrderSerializer` (the `create` mixin
of `OrderViewSet`): field validation with read-only fields dropped,
`order_items` defaulting to the empty list inside `create`, then the
commit; any validation failure leaves the state untouched. -/
def createEndpoint (db : DB) (r : CreateReq) : DB × Except VErr Nat :=
  if validCustomerName r.customer_name && validPhone r.phone && validAddress r.address then
    match runOrderItemsField db none r.order_items with
    | Except.error e => (db, Except.error e)
    | Except.ok ols => (commitCreate db r (ols.getD []), Except.ok (freshOrderId db))
  else
    (db, Except.error (VErr.validationError ("This field may not be blank.")))

/-- Body of an update request: any of the writable fields may be absent. -/
structure UpdateReq where
  customer_name : Option String
  phone : Option String
  address : Option String
  order_items : OrderItemsField
  status : Option String
  total_price : Option Int
  deriving DecidableEq, Repr

/-- Field copying in `OrderSerializer.update`:
`validated_data.get(field, instance.field)` for the writable fields. -/
def applyFields (o : OrderRec) (r : UpdateReq) : OrderRec :=
  { o with
      customer_name := r.customer_name.getD o.customer_name,
      phone := r.phone.getD o.phone,
      address := r.address.getD o.address }

/-- Commit path of `OrderSerializer.update`: copy the provided fields;
when a line-item list was provided, delete all line items of the order,
recreate the new set and recompute `total_price` from scratch; then save. -/
def commitUpdate (db : DB) (oid : Nat) (r : UpdateReq) (ols : Option (List ReqLine)) : DB :=
  match ols with
  | none =>
      { db with
          orders := db.orders.map (fun o => if o.id == oid then applyFields o r else o) }
  | some ls =>
      { db with
          orders := db.orders.map (fun o =>
            if o.id == oid then
              { applyFields o r with total_price := some (linesTotal db ls) }
            else o),
          order_items :=
            db.order_items.filter (fun li => li.order_id != oid)
              ++ mkLineItems oid (freshLineId db) ls }

/-- Validation of the writable string fields that an update supplies. -/
def validUpdateFields (r : UpdateReq) : Bool :=
  (r.customer_name.map validCustomerName).getD true
    && (r.phone.map validPhone).getD true
    && (r.address.map validAddress).getD true

/-- Endpoint `PUT/PATCH /orders/id` through `OrderSerializer.update` (the
update mixin of `OrderViewSet`): 404 when the order is absent, field
validation with the instance set (carve-back path), then the commit; any
failure leaves the state untouched. -/
def updateEndpoint (db : DB) (oid : Nat) (r : UpdateReq) : DB × Except VErr Unit :=
  match findOrder db oid with
  | none => (db, Except.error VErr.notFound)
  | some _ =>
      if validUpdateFields r then
        match runOrderItemsField db (some oid) r.order_items with
        | Except.error e => (db, Except.error e)
        | Except.ok ols => (commitUpdate db oid r ols, Except.ok ())
      else (db, Except.error (VErr.validationError ("This field may not be blank.")))

/-- Later catalog-management change of the unit price of an item (a mutation of
`Item.price`, out of scope for the order engine): only the items table is
touched. -/
def setItemPrice (db : DB) (iid : Nat) (p : Int) : DB :=
  { db with
      items := db.items.map (fun it => if it.id == iid then { it with price := p } else it) }

/-- Persisted line items of one order. -/
def orderLines (db : DB) (oid : Nat) : List OrderItem :=
  db.order_items.filter (fun li => li.order_id == oid)

/-- Persisted `total_price` of one order. -/
def orderTotal (db : DB) (oid : Nat) : Option Int :=
  (findOrder db oid).bind (fun o => o.total_price)

/-- Persisted `status` of one order. -/
def orderStatus (db : DB) (oid : Nat) : Option String :=
  (findOrder db oid).map (fun o => o.status)

/-- Stock conservation for one database state: per item, the total
persisted count never exceeds the available quantity. -/
def StockInvariant (db : DB) : Prop :=
  ∀ it ∈ db.items, consumed db it.id ≤ (it.quantity : Int)

/-- Well-formedness of a database state: item primary keys are unique and
persisted line counts are strictly positive (`PositiveSmallIntegerField`
with `MinValueValidator(1)`). -/
def WFdb (db : DB) : Prop :=
  (db.items.map (fun it => it.id)).Nodup ∧ ∀ li ∈ db.order_items, 1 ≤ li.count

/-- Requested line list of a request body, when one was supplied, has
pairwise-distinct item ids. -/
def NoDupItemIds (f : OrderItemsField) : Prop :=
  ∀ ls, f = some (some ls) → (ls.map (fun l => l.item_id)).Nodup

/-- One accepted commit through the exposed write surface (`OrderViewSet`
exposes exactly create and update as mutations). -/
inductive OpStep : DB → DB → Prop where
  | create (db : DB) (r : CreateReq) (v : Nat)
      (h : (createEndpoint db r).2 = Except.ok v) :
      OpStep db (createEndpoint db r).1
  | update (db : DB) (oid : Nat) (r : UpdateReq)
      (h : (updateEndpoint db oid r).2 = Except.ok ()) :
      OpStep db (updateEndpoint db oid r).1

/-- One accepted commit whose request repeats no item id within its
line-item list. -/
inductive OpStepND : DB → DB → Prop where
  | create (db : DB) (r : CreateReq) (v : Nat)
      (h : (createEndpoint db r).2 = Except.ok v)
      (hnd : NoDupItemIds r.order_items) :
      OpStepND db (createEndpoint db r).1
  | update (db : DB) (oid : Nat) (r : UpdateReq)
      (h : (updateEndpoint db oid r).2 = Except.ok ())
      (hnd : NoDupItemIds r.order_items) :
      OpStepND db (updateEndpoint db oid r).1

/-- Total requested count for one item across the lines of a request. -/
def reqCount (ls : List ReqLine) (iid : Nat) : Int :=
  ((ls.filter (fun l => l.item_id == iid)).map (fun l => l.count)).sum

instance (db : DB) : Decidable (StockInvariant db) := by
  unfold StockInvariant; infer_instance

instance (db : DB) : Decidable (WFdb db) := by
  unfold WFdb; infer_instance

/-- Statuses of all persisted orders are `new`. -/
def AllNew (db : DB) : Prop :=
  ∀ o ∈ db.orders, o.status = "new"

instance (db : DB) : Decidable (AllNew db) := by
  unfold AllNew; infer_instance

/-! Concrete fixtures mirroring the repository test data: `Pizza` at
price 10.99 with quantity 50, `Burger` at 8.99 with quantity 30. -/

/-- Catalog with Pizza and Burger in stock and nothing persisted yet. -/
def dbPizza : DB :=
  { items := [{ id := 1, name := "Pizza", price := 1099, quantity := 50 },
              { id := 2, name := "Burger", price := 899, quantity := 30 }],
    orders := [], order_items := [] }

/-- Catalog with a single Pizza left in stock. -/
def dbOneStock : DB :=
  { items := [{ id := 1, name := "Pizza", price := 1099, quantity := 1 }],
    orders := [], order_items := [] }

/-- State of the carve-back scenario: order 1 holds 10 Pizzas, order 2
holds 35 Pizzas, quantity 50. -/
def dbCarve : DB :=
  { items := [{ id := 1, name := "Pizza", price := 1099, quantity := 50 }],
    orders := [{ id := 1, customer_name := "Test User", phone := "1234567890",
                 address := "Test Address", total_price := some 10990, status := "new" },
               { id := 2, customer_name := "Other User", phone := "0987654321",
                 address := "Other Address", total_price := some 38465, status := "new" }],
    order_items := [{ id := 1, order_id := 1, item_id := 1, count := 10 },
                    { id := 2, order_id := 2, item_id := 1, count := 35 }] }

/-- State where order 1 holds two separate Pizza line items. -/
def dbTwoLines : DB :=
  { items := [{ id := 1, name := "Pizza", price := 1099, quantity := 50 }],
    orders := [{ id := 1, customer_name := "Test User", phone := "1234567890",
                 address := "Test Address", total_price := some 3297, status := "new" }],
    order_items := [{ id := 1, order_id := 1, item_id := 1, count := 1 },
                    { id := 2, order_id := 1, item_id := 1, count := 2 }] }

/-- Create request with two distinct items, as in the repository tests. -/
def reqTwoItems : CreateReq :=
  { customer_name := "Jane Smith", phone := "9876543210", address := "456 Oak St",
    order_items := some (some [{ item_id := 1, count := 2 }, { item_id := 2, count := 1 }]),
    status := none, total_price := none }

/-- Create request repeating the same item id on two lines. -/
def reqDupPizza : CreateReq :=
  { customer_name := "Jane Smith", phone := "9876543210", address := "456 Oak St",
    order_items := some (some [{ item_id := 1, count := 1 }, { item_id := 1, count := 1 }]),
    status := none, total_price := none }

/-- Create request with an explicit empty `order_items` list. -/
def reqEmptyItems : CreateReq :=
  { customer_name := "Jane Smith", phone := "9876543210", address := "456 Oak St",
    order_items := some (some []), status := none, total_price := none }

/-- Create request with `order_items` set to JSON null. -/
def reqNullItems : CreateReq :=
  { customer_name := "Jane Smith", phone := "9876543210", address := "456 Oak St",
    order_items := some none, status := none, total_price := none }

/-- Create request with the `order_items` field absent. -/
def reqAbsentItems : CreateReq :=
  { customer_name := "Jane Smith", phone := "9876543210", address := "456 Oak St",
    order_items := none, status := none, total_price := none }

/-- Create request with a blank customer name. -/
def reqBlankName : CreateReq :=
  { customer_name := "", phone := "9876543210", address := "456 Oak St",
    order_items := some (some [{ item_id := 1, count := 1 }]),
    status := none, total_price := none }

/-- Update request asking order 1 for a given Pizza count. -/
def updReqPizza (n : Int) : UpdateReq :=
  { customer_name := some ("Test User"), phone := some ("1234567890"),
    address := some ("Test Address"),
    order_items := some (some [{ item_id := 1, count := n }]),
    status := none, total_price := none }

/-! Helper lemmas about the validation loops. -/

theorem validateOrderItems_ok_iff (db : DB) (inst : Option Nat) (ls : List ReqLine) :
    validateOrderItems db inst ls = Except.ok () ↔
      ∀ l ∈ ls, checkStockLine db inst l = Except.ok () := by
  induction ls with
  | nil => simp [validateOrderItems]
  | cons l rest ih =>
    simp only [validateOrderItems]
    cases h : checkStockLine db inst l with
    | error e => simp [h]
    | ok u => cases u; simp [h, ih]

theorem validateOrderItems_append (db : DB) (inst : Option Nat) (xs ys : List ReqLine)
    (hxs : validateOrderItems db inst xs = Except.ok ()) :
    validateOrderItems db inst (xs ++ ys) = validateOrderItems db inst ys := by
  induction xs with
  | nil => simp
  | cons x rest ih =>
    simp only [validateOrderItems, List.cons_append] at hxs ⊢
    cases h : checkStockLine db inst x with
    | error e => rw [h] at hxs; exact absurd hxs (by simp)
    | ok u => rw [h] at hxs; exact ih hxs

theorem checkChildLines_ok_iff (db : DB) (ls : List ReqLine) :
    checkChildLines db ls = Except.ok () ↔
      ∀ l ∈ ls, checkChildLine db l = Except.ok () := by
  induction ls with
  | nil => simp [checkChildLines]
  | cons l rest ih =>
    simp only [checkChildLines]
    cases h : checkChildLine db l with
    | error e => simp [h]
    | ok u => cases u; simp [h, ih]

theorem checkChildLine_ok_count (db : DB) (l : ReqLine)
    (h : checkChildLine db l = Except.ok ()) : 1 ≤ l.count := by
  unfold checkChildLine at h
  split at h
  · exact absurd h (by simp)
  · split at h
    · exact absurd h (by simp)
    · omega

/-- Inversion of a successful `order_items` field validation. -/
theorem runOrderItemsField_ok (db : DB) (inst : Option Nat) (f : OrderItemsField)
    (ols : Option (List ReqLine)) (h : runOrderItemsField db inst f = Except.ok ols) :
    (f = none ∧ ols = none) ∨
      ∃ ls, f = some (some ls) ∧ ols = some ls ∧
        checkChildLines db ls = Except.ok () ∧
        validateOrderItems db inst ls = Except.ok () := by
  match f with
  | none =>
    left
    simp only [runOrderItemsField] at h
    exact ⟨rfl, (Except.ok.inj h).symm⟩
  | some none =>
    simp only [runOrderItemsField] at h
    exact absurd h (by simp)
  | some (some ls) =>
    right
    refine ⟨ls, rfl, ?_⟩
    simp only [runOrderItemsField] at h
    cases h1 : checkChildLines db ls with
    | error e => rw [h1] at h; exact absurd h (by simp)
    | ok u =>
      cases u
      rw [h1] at h
      cases h2 : validateOrderItems db inst ls with
      | error e => rw [h2] at h; exact absurd h (by simp)
      | ok v => cases v; rw [h2] at h; exact ⟨(Except.ok.inj h).symm, rfl, rfl⟩

/-! Helper lemmas about created line-item rows and consumption sums. -/

theorem mem_mkLineItems (oid base : Nat) (ls : List ReqLine) (li : OrderItem)
    (h : li ∈ mkLineItems oid base ls) :
    li.order_id = oid ∧ ∃ l ∈ ls, li.item_id = l.item_id ∧ li.count = l.count := by
  induction ls generalizing base with
  | nil => simp [mkLineItems] at h
  | cons l rest ih =>
    simp only [mkLineItems, List.mem_cons] at h
    rcases h with h | h
    · subst h
      exact ⟨rfl, l, by simp⟩
    · obtain ⟨h1, l2, h2, h3⟩ := ih (base + 1) h
      exact ⟨h1, l2, List.mem_cons_of_mem _ h2, h3⟩

theorem mkLineItems_map_pairs (oid base : Nat) (ls : List ReqLine) :
    (mkLineItems oid base ls).map (fun li => (li.item_id, li.count)) =
      ls.map (fun l => (l.item_id, l.count)) := by
  induction ls generalizing base with
  | nil => rfl
  | cons l rest ih => simp [mkLineItems, ih]

theorem mkLineItems_length (oid base : Nat) (ls : List ReqLine) :
    (mkLineItems oid base ls).length = ls.length := by
  induction ls generalizing base with
  | nil => rfl
  | cons l rest ih => simp [mkLineItems, ih]

theorem mkLineItems_count_sum (oid base iid : Nat) (ls : List ReqLine) :
    (((mkLineItems oid base ls).filter (fun li => li.item_id == iid)).map
      (fun li => li.count)).sum = reqCount ls iid := by
  induction ls generalizing base with
  | nil => rfl
  | cons l rest ih =>
    have hrec := ih (base + 1)
    unfold reqCount at hrec ⊢
    by_cases h : l.item_id = iid
    · have hb : (l.item_id == iid) = true := beq_iff_eq.mpr h
      simp only [mkLineItems, List.filter_cons, hb, if_pos, List.map_cons, List.sum_cons]
      rw [hrec]
    · have hb : (l.item_id == iid) = false := beq_eq_false_iff_ne.mpr h
      simp only [mkLineItems, List.filter_cons, hb, Bool.false_eq_true, reduceIte]
      rw [hrec]

theorem reqCount_eq_zero (ls : List ReqLine) (iid : Nat)
    (h : ∀ l ∈ ls, l.item_id ≠ iid) : reqCount ls iid = 0 := by
  unfold reqCount
  have : ls.filter (fun l => l.item_id == iid) = [] := by
    apply List.filter_eq_nil_iff.mpr
    intro l hl
    simpa using h l hl
  simp [this]

theorem reqCount_of_nodup_mem (ls : List ReqLine) (iid : Nat) (l : ReqLine)
    (hnd : (ls.map (fun x => x.item_id)).Nodup) (hl : l ∈ ls) (hid : l.item_id = iid) :
    reqCount ls iid = l.count := by
  induction ls with
  | nil => simp at hl
  | cons x rest ih =>
    simp only [List.map_cons, List.nodup_cons] at hnd
    rcases List.mem_cons.mp hl with h | h
    · subst h
      unfold reqCount
      rw [List.filter_cons_of_pos (by simpa using hid)]
      simp only [List.map_cons, List.sum_cons]
      have : reqCount rest iid = 0 := by
        apply reqCount_eq_zero
        intro l2 hl2 hid2
        exact hnd.1 (by rw [hid, ← hid2]; exact List.mem_map_of_mem _ hl2)
      unfold reqCount at this
      rw [this]
      ring
    · have hx : x.item_id ≠ iid := by
        intro hxe
        exact hnd.1 (by rw [← hid] at hxe; rw [hxe]; exact List.mem_map_of_mem _ h)
      unfold reqCount
      rw [List.filter_cons_of_neg (by simpa using hx)]
      exact ih hnd.2 h


/-! Helper lemmas about consumption accounting and the stock check. -/

theorem consumed_commitCreate (db : DB) (r : CreateReq) (ls : List ReqLine) (iid : Nat) :
    consumed (commitCreate db r ls) iid = consumed db iid + reqCount ls iid := by
  unfold consumed commitCreate
  simp only [List.filter_append, List.map_append, List.sum_append]
  rw [mkLineItems_count_sum]

theorem count_sum_split (L : List OrderItem) (oid iid : Nat) :
    ((L.filter (fun li => li.item_id == iid)).map (fun li => li.count)).sum =
      (((L.filter (fun li => li.order_id != oid)).filter
          (fun li => li.item_id == iid)).map (fun li => li.count)).sum
        + ((L.filter (fun li => li.order_id == oid && li.item_id == iid)).map
            (fun li => li.count)).sum := by
  induction L with
  | nil => rfl
  | cons x rest ih =>
    by_cases ho : x.order_id = oid
    · have hob : (x.order_id == oid) = true := beq_iff_eq.mpr ho
      have hbn : (x.order_id != oid) = false := by simp [bne, hob]
      by_cases hi : x.item_id = iid
      · have hib : (x.item_id == iid) = true := beq_iff_eq.mpr hi
        simp only [List.filter_cons, hib, hbn, hob, Bool.and_true,
          Bool.false_eq_true, reduceIte, List.map_cons, List.sum_cons]
        rw [ih]
        ring
      · have hib : (x.item_id == iid) = false := beq_eq_false_iff_ne.mpr hi
        simp only [List.filter_cons, hib, hbn, hob, Bool.and_false,
          Bool.false_eq_true, reduceIte]
        exact ih
    · have hob : (x.order_id == oid) = false := beq_eq_false_iff_ne.mpr ho
      have hbn : (x.order_id != oid) = true := by simp [bne, hob]
      by_cases hi : x.item_id = iid
      · have hib : (x.item_id == iid) = true := beq_iff_eq.mpr hi
        simp only [List.filter_cons, hib, hbn, hob, Bool.and_true,
          Bool.false_eq_true, reduceIte, List.map_cons, List.sum_cons]
        rw [ih]
        ring
      · have hib : (x.item_id == iid) = false := beq_eq_false_iff_ne.mpr hi
        simp only [List.filter_cons, hib, hbn, hob, Bool.and_false,
          Bool.false_eq_true, reduceIte]
        exact ih

theorem consumed_eq_other_add_own (db : DB) (oid iid : Nat) :
    consumed db iid =
      (((db.order_items.filter (fun li => li.order_id != oid)).filter
          (fun li => li.item_id == iid)).map (fun li => li.count)).sum
        + ownCount db oid iid := by
  unfold consumed ownCount ownLines
  exact count_sum_split db.order_items oid iid

theorem consumed_commitUpdate_some (db : DB) (oid : Nat) (r : UpdateReq)
    (ls : List ReqLine) (iid : Nat) :
    consumed (commitUpdate db oid r (some ls)) iid =
      consumed db iid - ownCount db oid iid + reqCount ls iid := by
  have hsplit := consumed_eq_other_add_own db oid iid
  have hnew : consumed (commitUpdate db oid r (some ls)) iid =
      (((db.order_items.filter (fun li => li.order_id != oid)).filter
          (fun li => li.item_id == iid)).map (fun li => li.count)).sum
        + reqCount ls iid := by
    unfold consumed commitUpdate
    simp only [List.filter_append, List.map_append, List.sum_append]
    rw [mkLineItems_count_sum]
  omega

theorem consumed_commitUpdate_none (db : DB) (oid : Nat) (r : UpdateReq) (iid : Nat) :
    consumed (commitUpdate db oid r none) iid = consumed db iid := rfl

theorem ownCount_nonneg (db : DB) (oid iid : Nat)
    (hwf : ∀ li ∈ db.order_items, 1 ≤ li.count) : 0 ≤ ownCount db oid iid := by
  apply List.sum_nonneg
  intro x hx
  obtain ⟨li, hli, hcount⟩ := List.mem_map.mp hx
  have hmem : li ∈ db.order_items := (List.mem_filter.mp hli).1
  have := hwf li hmem
  omega

theorem find?_id_of_nodup (L : List Item) (it : Item)
    (hnd : (L.map (fun x => x.id)).Nodup) (hmem : it ∈ L) :
    L.find? (fun x => x.id == it.id) = some it := by
  induction L with
  | nil => simp at hmem
  | cons x rest ih =>
    simp only [List.map_cons, List.nodup_cons] at hnd
    rcases List.mem_cons.mp hmem with h | h
    · subst h
      simp [List.find?_cons_of_pos]
    · have hx : x.id ≠ it.id := by
        intro hxe
        exact hnd.1 (by rw [hxe]; exact List.mem_map_of_mem _ h)
      rw [List.find?_cons_of_neg _ (by simpa using hx)]
      exact ih hnd.2 h

theorem findItem_eq_of_nodup (db : DB) (it : Item)
    (hnd : (db.items.map (fun x => x.id)).Nodup) (hmem : it ∈ db.items) :
    findItem db it.id = some it :=
  find?_id_of_nodup db.items it hnd hmem

theorem currentCount_create (db : DB) (iid : Nat) :
    currentCount db none iid = Except.ok 0 := rfl

theorem currentCount_of_nil (db : DB) (oid iid : Nat)
    (h : ownLines db oid iid = []) : currentCount db (some oid) iid = Except.ok 0 := by
  show lookupOwn db oid iid = Except.ok 0
  unfold lookupOwn
  rw [h]

theorem currentCount_of_single (db : DB) (oid iid : Nat) (li : OrderItem)
    (h : ownLines db oid iid = [li]) :
    currentCount db (some oid) iid = Except.ok li.count := by
  show lookupOwn db oid iid = Except.ok li.count
  unfold lookupOwn
  rw [h]

theorem currentCount_of_multi (db : DB) (oid iid : Nat)
    (h : 2 ≤ (ownLines db oid iid).length) :
    currentCount db (some oid) iid = Except.error VErr.multipleObjectsReturned := by
  show lookupOwn db oid iid = Except.error VErr.multipleObjectsReturned
  unfold lookupOwn
  cases ho : ownLines db oid iid with
  | nil => rw [ho] at h; simp at h
  | cons a t =>
    cases t with
    | nil => rw [ho] at h; simp at h
    | cons b t2 => rfl

theorem currentCount_ok_eq_ownCount (db : DB) (oid iid : Nat) (cur : Int)
    (h : currentCount db (some oid) iid = Except.ok cur) :
    cur = ownCount db oid iid ∧ (ownLines db oid iid).length ≤ 1 := by
  have h2 : lookupOwn db oid iid = Except.ok cur := h
  unfold lookupOwn at h2
  cases ho : ownLines db oid iid with
  | nil =>
    rw [ho] at h2
    have : cur = 0 := (Except.ok.inj h2).symm
    exact ⟨by simp [this, ownCount, ho], by simp⟩
  | cons a t =>
    cases t with
    | nil =>
      rw [ho] at h2
      have : cur = a.count := (Except.ok.inj h2).symm
      exact ⟨by simp [this, ownCount, ho], by simp⟩
    | cons b t2 =>
      rw [ho] at h2
      exact Except.noConfusion h2

theorem checkStockLine_eq (db : DB) (inst : Option Nat) (l : ReqLine) (it : Item)
    (cur : Int) (hf : findItem db l.item_id = some it)
    (hc : currentCount db inst l.item_id = Except.ok cur) :
    checkStockLine db inst l =
      if remainingQuantity db it + cur < l.count then
        Except.error (VErr.validationError
          ("Not enough stock for item " ++ it.name ++ "."))
      else Except.ok () := by
  unfold checkStockLine
  rw [hf, hc]

theorem checkStockLine_notfound (db : DB) (inst : Option Nat) (l : ReqLine)
    (hf : findItem db l.item_id = none) :
    checkStockLine db inst l =
      Except.error (VErr.validationError
        ("Item with ID " ++ toString l.item_id ++ " does not exist.")) := by
  unfold checkStockLine
  rw [hf]

theorem checkStockLine_propagate (db : DB) (inst : Option Nat) (l : ReqLine) (it : Item)
    (e : VErr) (hf : findItem db l.item_id = some it)
    (hc : currentCount db inst l.item_id = Except.error e) :
    checkStockLine db inst l = Except.error e := by
  unfold checkStockLine
  rw [hf, hc]

theorem checkStockLine_ok_bound (db : DB) (inst : Option Nat) (l : ReqLine)
    (h : checkStockLine db inst l = Except.ok ()) :
    ∃ it cur, findItem db l.item_id = some it ∧
      currentCount db inst l.item_id = Except.ok cur ∧
      l.count ≤ remainingQuantity db it + cur := by
  cases hf : findItem db l.item_id with
  | none =>
    rw [checkStockLine_notfound db inst l hf] at h
    exact Except.noConfusion h
  | some it =>
    cases hc : currentCount db inst l.item_id with
    | error e =>
      rw [checkStockLine_propagate db inst l it e hf hc] at h
      exact Except.noConfusion h
    | ok cur =>
      rw [checkStockLine_eq db inst l it cur hf hc] at h
      refine ⟨it, cur, rfl, rfl, ?_⟩
      by_cases hlt : remainingQuantity db it + cur < l.count
      · rw [if_pos hlt] at h
        exact Except.noConfusion h
      · omega

theorem checkChildLines_counts (db : DB) (ls : List ReqLine)
    (h : checkChildLines db ls = Except.ok ()) : ∀ l ∈ ls, 1 ≤ l.count := by
  intro l hl
  exact checkChildLine_ok_count db l ((checkChildLines_ok_iff db ls).mp h l hl)

/-! Preservation of well-formedness by the two commit paths. -/

theorem WFdb_commitCreate (db : DB) (r : CreateReq) (ls : List ReqLine)
    (hwf : WFdb db) (hcounts : ∀ l ∈ ls, 1 ≤ l.count) :
    WFdb (commitCreate db r ls) := by
  obtain ⟨hnd, hpos⟩ := hwf
  refine ⟨hnd, ?_⟩
  intro li hli
  rcases List.mem_append.mp hli with h | h
  · exact hpos li h
  · obtain ⟨_, l, hl, _, hcount⟩ := mem_mkLineItems _ _ _ _ h
    rw [hcount]
    exact hcounts l hl

theorem WFdb_commitUpdate (db : DB) (oid : Nat) (r : UpdateReq)
    (ols : Option (List ReqLine)) (hwf : WFdb db)
    (hcounts : ∀ ls, ols = some ls → ∀ l ∈ ls, 1 ≤ l.count) :
    WFdb (commitUpdate db oid r ols) := by
  obtain ⟨hnd, hpos⟩ := hwf
  cases ols with
  | none => exact ⟨hnd, hpos⟩
  | some ls =>
    refine ⟨hnd, ?_⟩
    intro li hli
    rcases List.mem_append.mp hli with h | h
    · exact hpos li (List.mem_filter.mp h).1
    · obtain ⟨_, l, hl, _, hcount⟩ := mem_mkLineItems _ _ _ _ h
      rw [hcount]
      exact hcounts ls rfl l hl

/-! Preservation of the stock invariant by accepted commits without
duplicate item ids in the request. -/

theorem StockInvariant_commitCreate (db : DB) (r : CreateReq) (ls : List ReqLine)
    (hwf : WFdb db) (hinv : StockInvariant db)
    (hok : validateOrderItems db none ls = Except.ok ())
    (hnd : (ls.map (fun l => l.item_id)).Nodup) :
    StockInvariant (commitCreate db r ls) := by
  intro it hit
  have hit2 : it ∈ db.items := hit
  rw [consumed_commitCreate]
  by_cases hreq : ∃ l ∈ ls, l.item_id = it.id
  · obtain ⟨l, hl, hlid⟩ := hreq
    rw [reqCount_of_nodup_mem ls it.id l hnd hl hlid]
    have hline := (validateOrderItems_ok_iff db none ls).mp hok l hl
    obtain ⟨it2, cur, hf, hc, hbound⟩ := checkStockLine_ok_bound db none l hline
    have hcur : cur = 0 := by
      have h0 : Except.ok (ε := VErr) 0 = Except.ok cur :=
        (currentCount_create db l.item_id).symm.trans hc
      exact (Except.ok.inj h0).symm
    have hfit : findItem db l.item_id = some it := by
      rw [hlid]
      exact findItem_eq_of_nodup db it hwf.1 hit2
    have hit2eq : it2 = it := by
      rw [hf] at hfit
      exact Option.some.inj hfit
    subst hit2eq
    rw [hcur] at hbound
    unfold remainingQuantity at hbound
    omega
  · push_neg at hreq
    rw [reqCount_eq_zero ls it.id hreq]
    have := hinv it hit2
    omega

theorem StockInvariant_commitUpdate_some (db : DB) (oid : Nat) (r : UpdateReq)
    (ls : List ReqLine) (hwf : WFdb db) (hinv : StockInvariant db)
    (hok : validateOrderItems db (some oid) ls = Except.ok ())
    (hnd : (ls.map (fun l => l.item_id)).Nodup) :
    StockInvariant (commitUpdate db oid r (some ls)) := by
  intro it hit
  have hit2 : it ∈ db.items := hit
  rw [consumed_commitUpdate_some]
  have hown := ownCount_nonneg db oid it.id hwf.2
  by_cases hreq : ∃ l ∈ ls, l.item_id = it.id
  · obtain ⟨l, hl, hlid⟩ := hreq
    rw [reqCount_of_nodup_mem ls it.id l hnd hl hlid]
    have hline := (validateOrderItems_ok_iff db (some oid) ls).mp hok l hl
    obtain ⟨it2, cur, hf, hc, hbound⟩ := checkStockLine_ok_bound db (some oid) l hline
    have hcur := (currentCount_ok_eq_ownCount db oid l.item_id cur hc).1
    have hfit : findItem db l.item_id = some it := by
      rw [hlid]
      exact findItem_eq_of_nodup db it hwf.1 hit2
    have hit2eq : it2 = it := by
      rw [hf] at hfit
      exact Option.some.inj hfit
    subst hit2eq
    unfold remainingQuantity at hbound
    rw [hlid] at hcur
    omega
  · push_neg at hreq
    rw [reqCount_eq_zero ls it.id hreq]
    have := hinv it hit2
    omega

/-! Inversion of successful endpoint runs. -/

theorem createEndpoint_ok (db : DB) (r : CreateReq) (v : Nat)
    (h : (createEndpoint db r).2 = Except.ok v) :
    ∃ ols, runOrderItemsField db none r.order_items = Except.ok ols ∧
      (createEndpoint db r).1 = commitCreate db r (ols.getD []) ∧
      v = freshOrderId db := by
  unfold createEndpoint at h ⊢
  by_cases hv : (validCustomerName r.customer_name && validPhone r.phone
      && validAddress r.address) = true
  · rw [if_pos hv] at h ⊢
    cases hr : runOrderItemsField db none r.order_items with
    | error e =>
      rw [hr] at h
      exact Except.noConfusion h
    | ok ols =>
      rw [hr] at h
      exact ⟨ols, rfl, rfl, (Except.ok.inj h).symm⟩
  · rw [if_neg hv] at h
    exact Except.noConfusion h

theorem updateEndpoint_ok (db : DB) (oid : Nat) (r : UpdateReq)
    (h : (updateEndpoint db oid r).2 = Except.ok ()) :
    ∃ o ols, findOrder db oid = some o ∧
      runOrderItemsField db (some oid) r.order_items = Except.ok ols ∧
      (updateEndpoint db oid r).1 = commitUpdate db oid r ols := by
  unfold updateEndpoint at h ⊢
  cases hfo : findOrder db oid with
  | none =>
    rw [hfo] at h
    exact Except.noConfusion h
  | some o =>
    rw [hfo] at h
    by_cases hv : validUpdateFields r = true
    · rw [if_pos hv] at h ⊢
      cases hr : runOrderItemsField db (some oid) r.order_items with
      | error e =>
        rw [hr] at h
        exact Except.noConfusion h
      | ok ols =>
        rw [hr] at h
        exact ⟨o, ols, rfl, rfl, rfl⟩
    · rw [if_neg hv] at h
      exact Except.noConfusion h

/-! Single-step and multi-step preservation. -/

theorem OpStepND_preserves (db db' : DB) (h : OpStepND db db')
    (hwf : WFdb db) (hinv : StockInvariant db) :
    WFdb db' ∧ StockInvariant db' := by
  cases h with
  | create r v hok hnd =>
    obtain ⟨ols, hr, heq, _⟩ := createEndpoint_ok db r v hok
    rw [heq]
    rcases runOrderItemsField_ok db none r.order_items ols hr with
      ⟨hfield, hnone⟩ | ⟨ls, hfield, hsome, hchild, hvalid⟩
    · subst hnone
      exact ⟨WFdb_commitCreate db r [] hwf (by simp),
             StockInvariant_commitCreate db r [] hwf hinv rfl (by simp)⟩
    · subst hsome
      have hnodup : (ls.map (fun l => l.item_id)).Nodup := hnd ls hfield
      exact ⟨WFdb_commitCreate db r ls hwf (checkChildLines_counts db ls hchild),
             StockInvariant_commitCreate db r ls hwf hinv hvalid hnodup⟩
  | update oid r hok hnd =>
    obtain ⟨o, ols, hfo, hr, heq⟩ := updateEndpoint_ok db oid r hok
    rw [heq]
    rcases runOrderItemsField_ok db (some oid) r.order_items ols hr with
      ⟨hfield, hnone⟩ | ⟨ls, hfield, hsome, hchild, hvalid⟩
    · subst hnone
      refine ⟨WFdb_commitUpdate db oid r none hwf (by intro ls h2; cases h2), ?_⟩
      intro it hit
      rw [consumed_commitUpdate_none]
      exact hinv it hit
    · subst hsome
      have hnodup : (ls.map (fun l => l.item_id)).Nodup := hnd ls hfield
      refine ⟨WFdb_commitUpdate db oid r (some ls) hwf ?_,
              StockInvariant_commitUpdate_some db oid r ls hwf hinv hvalid hnodup⟩
      intro ls2 h2
      injection h2 with h3
      subst h3
      exact checkChildLines_counts _ _ hchild

theorem OpStepND_rtg_preserves (db db' : DB)
    (h : Relation.ReflTransGen OpStepND db db')
    (hwf : WFdb db) (hinv : StockInvariant db) :
    WFdb db' ∧ StockInvariant db' := by
  induction h with
  | refl => exact ⟨hwf, hinv⟩
  | tail hsteps hlast ih => exact OpStepND_preserves _ _ hlast ih.1 ih.2

/-! Frame lemmas about the persisted orders and line items. -/

theorem find?_pres_map (L : List OrderRec) (g : OrderRec → OrderRec)
    (hg : ∀ o, (g o).id = o.id) (oid : Nat) :
    (L.map g).find? (fun o => o.id == oid) = (L.find? (fun o => o.id == oid)).map g := by
  induction L with
  | nil => rfl
  | cons x rest ih =>
    by_cases hx : x.id = oid
    · rw [List.map_cons,
        List.find?_cons_of_pos _ (by rw [hg x]; exact beq_iff_eq.mpr hx),
        List.find?_cons_of_pos _ (by simp [hx])]
      rfl
    · rw [List.map_cons,
        List.find?_cons_of_neg _ (by rw [hg x]; simpa using hx),
        List.find?_cons_of_neg _ (by simpa using hx)]
      exact ih

theorem orderTotal_commitCreate (db : DB) (r : CreateReq) (ls : List ReqLine) :
    orderTotal (commitCreate db r ls) (freshOrderId db) = some (linesTotal db ls) := by
  unfold orderTotal findOrder commitCreate
  simp only
  rw [List.find?_cons_of_pos _ (by simp)]
  rfl

theorem orderStatus_commitCreate (db : DB) (r : CreateReq) (ls : List ReqLine) :
    orderStatus (commitCreate db r ls) (freshOrderId db) = some ("new") := by
  unfold orderStatus findOrder commitCreate
  simp only
  rw [List.find?_cons_of_pos _ (by simp)]
  rfl

theorem mkLineItems_filter_self (oid base : Nat) (ls : List ReqLine) :
    (mkLineItems oid base ls).filter (fun li => li.order_id == oid) =
      mkLineItems oid base ls := by
  apply List.filter_eq_self.mpr
  intro li h
  rw [(mem_mkLineItems _ _ _ _ h).1]
  simp

theorem mkLineItems_filter_ne (oid base : Nat) (ls : List ReqLine) (oid2 : Nat)
    (h : oid2 ≠ oid) :
    (mkLineItems oid base ls).filter (fun li => li.order_id == oid2) = [] := by
  apply List.filter_eq_nil_iff.mpr
  intro li hmem
  rw [(mem_mkLineItems _ _ _ _ hmem).1]
  simp
  exact fun he => h he.symm

theorem orderLines_commitCreate (db : DB) (r : CreateReq) (ls : List ReqLine)
    (hfresh : orderLines db (freshOrderId db) = []) :
    orderLines (commitCreate db r ls) (freshOrderId db) =
      mkLineItems (freshOrderId db) (freshLineId db) ls := by
  unfold orderLines at hfresh ⊢
  unfold commitCreate
  simp only [List.filter_append]
  rw [hfresh, mkLineItems_filter_self, List.nil_append]

theorem orderLines_commitUpdate_self (db : DB) (oid : Nat) (r : UpdateReq)
    (ls : List ReqLine) :
    orderLines (commitUpdate db oid r (some ls)) oid =
      mkLineItems oid (freshLineId db) ls := by
  unfold orderLines commitUpdate
  simp only [List.filter_append]
  rw [mkLineItems_filter_self]
  have hnil : (db.order_items.filter (fun li => li.order_id != oid)).filter
      (fun li => li.order_id == oid) = [] := by
    apply List.filter_eq_nil_iff.mpr
    intro li hmem
    have h2 := (List.mem_filter.mp hmem).2
    simp only [bne_iff_ne, ne_eq] at h2
    simp [h2]
  rw [hnil, List.nil_append]

theorem orderLines_commitUpdate_other (db : DB) (oid : Nat) (r : UpdateReq)
    (ols : Option (List ReqLine)) (oid2 : Nat) (h : oid2 ≠ oid) :
    orderLines (commitUpdate db oid r ols) oid2 = orderLines db oid2 := by
  cases ols with
  | none => rfl
  | some ls =>
    unfold orderLines commitUpdate
    simp only [List.filter_append]
    rw [mkLineItems_filter_ne _ _ _ _ h, List.append_nil, List.filter_filter]
    apply List.filter_congr
    intro x hx
    by_cases hxo : x.order_id = oid2
    · simp [hxo, h]
    · simp [beq_eq_false_iff_ne.mpr hxo]

theorem orderTotal_commitUpdate_some (db : DB) (oid : Nat) (r : UpdateReq)
    (ls : List ReqLine) (o : OrderRec) (hfo : findOrder db oid = some o) :
    orderTotal (commitUpdate db oid r (some ls)) oid = some (linesTotal db ls) := by
  unfold findOrder at hfo
  have hp : (o.id == oid) = true := by
    have h2 := List.find?_some hfo
    simpa using h2
  unfold orderTotal findOrder commitUpdate
  simp only
  rw [find?_pres_map _ _ (fun o2 => by by_cases h2 : (o2.id == oid) = true <;>
    simp [h2, applyFields]) oid]
  rw [hfo]
  have heq : o.id = oid := by simpa using hp
  simp [heq]

theorem orderTotal_setItemPrice (db : DB) (iid : Nat) (p : Int) (oid : Nat) :
    orderTotal (setItemPrice db iid p) oid = orderTotal db oid := rfl

theorem AllNew_commitCreate (db : DB) (r : CreateReq) (ls : List ReqLine)
    (h : AllNew db) : AllNew (commitCreate db r ls) := by
  intro o ho
  simp only [commitCreate] at ho
  rcases List.mem_cons.mp ho with he | hm
  · rw [he]
  · exact h o hm

theorem AllNew_commitUpdate (db : DB) (oid : Nat) (r : UpdateReq)
    (ols : Option (List ReqLine)) (h : AllNew db) :
    AllNew (commitUpdate db oid r ols) := by
  intro o ho
  cases ols with
  | none =>
    simp only [commitUpdate] at ho
    obtain ⟨o0, hmem, hmap⟩ := List.mem_map.mp ho
    by_cases h2 : (o0.id == oid) = true
    · rw [if_pos h2] at hmap
      rw [← hmap]
      exact h o0 hmem
    · rw [if_neg h2] at hmap
      rw [← hmap]
      exact h o0 hmem
  | some ls =>
    simp only [commitUpdate] at ho
    obtain ⟨o0, hmem, hmap⟩ := List.mem_map.mp ho
    by_cases h2 : (o0.id == oid) = true
    · rw [if_pos h2] at hmap
      rw [← hmap]
      exact h o0 hmem
    · rw [if_neg h2] at hmap
      rw [← hmap]
      exact h o0 hmem

theorem OpStep_AllNew (db db' : DB) (h : OpStep db db') (hall : AllNew db) :
    AllNew db' := by
  cases h with
  | create r v hok =>
    obtain ⟨ols, hr, heq, _⟩ := createEndpoint_ok db r v hok
    rw [heq]
    exact AllNew_commitCreate db r _ hall
  | update oid r hok =>
    obtain ⟨o, ols, hfo, hr, heq⟩ := updateEndpoint_ok db oid r hok
    rw [heq]
    exact AllNew_commitUpdate db oid r ols hall

/-! Claim theorems. -/

/-- Claim C1, counterexample: from a well-formed state satisfying stock
conservation (one Pizza in stock, nothing consumed), the create request
repeating item 1 on two lines with count 1 each is accepted — both lines
are validated against the same per-call snapshot — and the resulting state
persists a total count of 2 for an item with `available_quantity = 1`,
violating stock conservation. -/
theorem stock_conservation_counterexample :
    WFdb dbOneStock ∧ StockInvariant dbOneStock ∧
      (createEndpoint dbOneStock reqDupPizza).2 = Except.ok 1 ∧
      consumed (createEndpoint dbOneStock reqDupPizza).1 1 = 2 ∧
      ¬ StockInvariant (createEndpoint dbOneStock reqDupPizza).1 :=
  ⟨by decide, by decide, rfl, by decide, by decide⟩

/-- Claim C1, amended: for every Item, after any sequence of accepted
create/update commits in which no request repeats an item id within its
line-item list (single writer, starting from a well-formed state), the sum
of `count` across all persisted line items referencing that Item never
exceeds the `available_quantity` of the Item. -/
theorem stock_conservation_nodup_requests (db db' : DB)
    (hsteps : Relation.ReflTransGen OpStepND db db')
    (hwf : WFdb db) (hinv : StockInvariant db) : StockInvariant db' :=
  (OpStepND_rtg_preserves db db' hsteps hwf hinv).2

/-- Witness for the amended C1: one accepted create of two Pizzas and one
Burger against the fresh catalog keeps stock conservation. -/
theorem stock_conservation_nodup_requests_witness :
    StockInvariant (createEndpoint dbPizza reqTwoItems).1 :=
  stock_conservation_nodup_requests dbPizza _
    (Relation.ReflTransGen.single (OpStepND.create dbPizza reqTwoItems 1 rfl
      (by
        intro ls hls
        have h2 : some (some [({ item_id := 1, count := 2 } : ReqLine),
            { item_id := 2, count := 1 }]) = some (some ls) := hls
        injection h2 with h3
        injection h3 with h4
        subst h4
        decide)))
    (by decide) (by decide)

/-- Claim C9: updating an order that persists two or more line items for
the same item, with a request whose remaining lines reach that item, makes
the single-record carve-back lookup in `validate_order_items` raise the
uncaught `MultipleObjectsReturned`: validation ends in an internal error,
neither accepting nor rejecting. -/
theorem carve_back_lookup_crash (db : DB) (oid : Nat) (pre rest : List ReqLine)
    (l : ReqLine) (it : Item)
    (hpre : validateOrderItems db (some oid) pre = Except.ok ())
    (hit : findItem db l.item_id = some it)
    (hmulti : 2 ≤ (ownLines db oid l.item_id).length) :
    validateOrderItems db (some oid) (pre ++ l :: rest) =
      Except.error VErr.multipleObjectsReturned := by
  rw [validateOrderItems_append db (some oid) pre (l :: rest) hpre]
  have hcc := currentCount_of_multi db oid l.item_id hmulti
  have hline := checkStockLine_propagate db (some oid) l it
    VErr.multipleObjectsReturned hit hcc
  unfold validateOrderItems
  rw [hline]

/-- Witness for C9: order 1 of `dbTwoLines` holds two Pizza lines; asking
for Pizza again during an update crashes the validation internally. -/
theorem carve_back_lookup_crash_witness :
    validateOrderItems dbTwoLines (some 1) [{ item_id := 1, count := 1 }] =
      Except.error VErr.multipleObjectsReturned :=
  carve_back_lookup_crash dbTwoLines 1 [] []
    { item_id := 1, count := 1 }
    { id := 1, name := "Pizza", price := 1099, quantity := 50 }
    rfl rfl (by decide)

/-- Claim C10: through the exposed write surface (create and update; list
and retrieve do not mutate), every persisted order keeps status `new`:
create forces it and no exposed operation changes it. -/
theorem status_always_new (db db' : DB)
    (hsteps : Relation.ReflTransGen OpStep db db') (hall : AllNew db) :
    AllNew db' := by
  induction hsteps with
  | refl => exact hall
  | tail hs hlast ih => exact OpStep_AllNew _ _ hlast ih

/-- Witness for C10: after one accepted create on the fresh catalog, all
orders still have status `new`. -/
theorem status_always_new_witness :
    AllNew (createEndpoint dbPizza reqTwoItems).1 :=
  status_always_new dbPizza _
    (Relation.ReflTransGen.single (OpStep.create dbPizza reqTwoItems 1 rfl))
    (by decide)

/-- Claim C2, code behavior at the failing input: a create request with an
explicit empty `order_items` list is accepted (DRF `allow_empty` defaults
to true and the validation loop over no lines returns), persisting an
order with no line items and `total_price` 0; a request omitting the field
is likewise accepted (`required=False`); only JSON null is rejected. The
test suite of the repository asserts the empty list must be invalid. -/
theorem empty_order_items_accepted :
    (createEndpoint dbPizza reqEmptyItems).2 = Except.ok 1 ∧
      orderLines (createEndpoint dbPizza reqEmptyItems).1 1 = [] ∧
      orderTotal (createEndpoint dbPizza reqEmptyItems).1 1 = some 0 ∧
      (createEndpoint dbPizza reqNullItems).2 =
        Except.error (VErr.validationError ("This field may not be null.")) ∧
      (createEndpoint dbPizza reqAbsentItems).2 = Except.ok 1 :=
  ⟨rfl, rfl, rfl, rfl, rfl⟩

/-- Claim C3: during update validation, a requested line for an existing
item whose order holds at most one line of that item is accepted exactly
when `remaining_quantity + current_count` covers the requested count, and
otherwise fails with the insufficient-stock error naming that item. -/
theorem carve_back_on_self_update (db : DB) (oid : Nat) (l : ReqLine) (it : Item)
    (hit : findItem db l.item_id = some it)
    (hown : (ownLines db oid l.item_id).length ≤ 1) :
    (checkStockLine db (some oid) l = Except.ok () ↔
      l.count ≤ remainingQuantity db it + ownCount db oid l.item_id) ∧
    (¬ l.count ≤ remainingQuantity db it + ownCount db oid l.item_id →
      checkStockLine db (some oid) l =
        Except.error (VErr.validationError
          ("Not enough stock for item " ++ it.name ++ "."))) := by
  have hcur : currentCount db (some oid) l.item_id =
      Except.ok (ownCount db oid l.item_id) := by
    cases ho : ownLines db oid l.item_id with
    | nil =>
      rw [currentCount_of_nil db oid _ ho]
      simp [ownCount, ho]
    | cons a t =>
      cases t with
      | nil =>
        rw [currentCount_of_single db oid _ a ho]
        simp [ownCount, ho]
      | cons b t2 =>
        rw [ho] at hown
        simp at hown
  rw [checkStockLine_eq db (some oid) l it _ hit hcur]
  constructor
  · constructor
    · intro h
      by_cases hlt : remainingQuantity db it + ownCount db oid l.item_id < l.count
      · rw [if_pos hlt] at h
        exact Except.noConfusion h
      · omega
    · intro hle
      rw [if_neg (by omega)]
  · intro hgt
    rw [if_pos (by omega)]

/-- Witness for C3, the concrete carve-back scenario: quantity 50, the
updated order holds 10, another order holds 35; requesting 15 is accepted
and 16 is rejected with the insufficient-stock error. -/
theorem carve_back_on_self_update_witness :
    checkStockLine dbCarve (some 1) { item_id := 1, count := 15 } = Except.ok () ∧
      checkStockLine dbCarve (some 1) { item_id := 1, count := 16 } =
        Except.error (VErr.validationError
          ("Not enough stock for item " ++ "Pizza" ++ ".")) := by
  constructor
  · exact (carve_back_on_self_update dbCarve 1 { item_id := 1, count := 15 }
      { id := 1, name := "Pizza", price := 1099, quantity := 50 } rfl
      (by decide)).1.mpr (by decide)
  · exact (carve_back_on_self_update dbCarve 1 { item_id := 1, count := 16 }
      { id := 1, name := "Pizza", price := 1099, quantity := 50 } rfl
      (by decide)).2 (by decide)

/-- Claim C4: an accepted create request persists exactly one line item
per request line — duplicate item ids included, never merged — in request
order, with `total_price` the sum of price times count over all lines; and
the validation outcome is the conjunction of per-line checks against the
single per-call consumption snapshot, not recomputed line by line. -/
theorem duplicate_lines_not_merged (db : DB) (r : CreateReq) (ls : List ReqLine)
    (v : Nat) (hls : r.order_items = some (some ls))
    (hfresh : orderLines db (freshOrderId db) = [])
    (hok : (createEndpoint db r).2 = Except.ok v) :
    ((orderLines (createEndpoint db r).1 (freshOrderId db)).map
        (fun li => (li.item_id, li.count)) = ls.map (fun l => (l.item_id, l.count))) ∧
    (orderLines (createEndpoint db r).1 (freshOrderId db)).length = ls.length ∧
    orderTotal (createEndpoint db r).1 (freshOrderId db) = some (linesTotal db ls) ∧
    (validateOrderItems db none ls = Except.ok () ↔
      ∀ l ∈ ls, checkStockLine db none l = Except.ok ()) := by
  obtain ⟨ols, hr, heq, hv⟩ := createEndpoint_ok db r v hok
  rcases runOrderItemsField_ok db none r.order_items ols hr with
    ⟨hfield, _⟩ | ⟨ls2, hfield, hsome, _, _⟩
  · rw [hls] at hfield
    exact absurd hfield (by simp)
  · rw [hls] at hfield
    injection hfield with h1
    injection h1 with h2
    subst h2
    subst hsome
    rw [heq]
    refine ⟨?_, ?_, ?_, validateOrderItems_ok_iff db none ls⟩
    · rw [show Option.getD (some ls) [] = ls from rfl,
        orderLines_commitCreate db r ls hfresh, mkLineItems_map_pairs]
    · rw [show Option.getD (some ls) [] = ls from rfl,
        orderLines_commitCreate db r ls hfresh, mkLineItems_length]
    · exact orderTotal_commitCreate db r ls

/-- Witness for C4: the same Pizza on two lines of one accepted create
yields two separate persisted line items and the summed total. -/
theorem duplicate_lines_not_merged_witness :
    (orderLines (createEndpoint dbPizza reqDupPizza).1 1).length = 2 ∧
      orderTotal (createEndpoint dbPizza reqDupPizza).1 1 = some 2198 := by
  have h := duplicate_lines_not_merged dbPizza reqDupPizza
    [{ item_id := 1, count := 1 }, { item_id := 1, count := 1 }] 1 rfl rfl rfl
  exact ⟨h.2.1, h.2.2.1⟩

/-- Claim C5: a committed create freezes `total_price` as the sum of the
catalog prices read at commit time times the counts, and a later change to
the unit price of any item leaves every persisted `total_price` unchanged. -/
theorem price_freeze (db : DB) (r : CreateReq) (ls : List ReqLine) (v : Nat)
    (hls : r.order_items = some (some ls))
    (hok : (createEndpoint db r).2 = Except.ok v) (iid : Nat) (p : Int) :
    orderTotal (createEndpoint db r).1 (freshOrderId db) = some (linesTotal db ls) ∧
    orderTotal (setItemPrice (createEndpoint db r).1 iid p) (freshOrderId db) =
      orderTotal (createEndpoint db r).1 (freshOrderId db) := by
  obtain ⟨ols, hr, heq, hv⟩ := createEndpoint_ok db r v hok
  rcases runOrderItemsField_ok db none r.order_items ols hr with
    ⟨hfield, _⟩ | ⟨ls2, hfield, hsome, _, _⟩
  · rw [hls] at hfield
    exact absurd hfield (by simp)
  · rw [hls] at hfield
    injection hfield with h1
    injection h1 with h2
    subst h2
    subst hsome
    rw [heq]
    exact ⟨orderTotal_commitCreate db r ls,
      orderTotal_setItemPrice _ iid p (freshOrderId db)⟩

/-- Witness for C5: the Pizza and Burger order totals 30.97; raising the
Pizza price afterwards leaves the stored total unchanged. -/
theorem price_freeze_witness :
    orderTotal (createEndpoint dbPizza reqTwoItems).1 1 = some 3097 ∧
      orderTotal (setItemPrice (createEndpoint dbPizza reqTwoItems).1 1 99999) 1 =
        orderTotal (createEndpoint dbPizza reqTwoItems).1 1 := by
  have h := price_freeze dbPizza reqTwoItems
    [{ item_id := 1, count := 2 }, { item_id := 2, count := 1 }] 1 rfl rfl 1 99999
  exact ⟨h.1, h.2⟩

/-- Claim C6: an accepted update supplying a line-item list replaces the
persisted line items of the order wholesale — the resulting set matches the new
list exactly, its size is the length of the new list, `total_price` is
recomputed from scratch, and line items of other orders are untouched. -/
theorem replace_not_merge (db : DB) (oid : Nat) (r : UpdateReq) (ls : List ReqLine)
    (hls : r.order_items = some (some ls))
    (hok : (updateEndpoint db oid r).2 = Except.ok ()) :
    ((orderLines (updateEndpoint db oid r).1 oid).map
        (fun li => (li.item_id, li.count)) = ls.map (fun l => (l.item_id, l.count))) ∧
    (orderLines (updateEndpoint db oid r).1 oid).length = ls.length ∧
    orderTotal (updateEndpoint db oid r).1 oid = some (linesTotal db ls) ∧
    (∀ oid2, oid2 ≠ oid →
      orderLines (updateEndpoint db oid r).1 oid2 = orderLines db oid2) := by
  obtain ⟨o, ols, hfo, hr, heq⟩ := updateEndpoint_ok db oid r hok
  rcases runOrderItemsField_ok db (some oid) r.order_items ols hr with
    ⟨hfield, _⟩ | ⟨ls2, hfield, hsome, _, _⟩
  · rw [hls] at hfield
    exact absurd hfield (by simp)
  · rw [hls] at hfield
    injection hfield with h1
    injection h1 with h2
    subst h2
    subst hsome
    rw [heq]
    refine ⟨?_, ?_, ?_, ?_⟩
    · rw [orderLines_commitUpdate_self, mkLineItems_map_pairs]
    · rw [orderLines_commitUpdate_self, mkLineItems_length]
    · exact orderTotal_commitUpdate_some db oid r ls o hfo
    · intro oid2 hne
      exact orderLines_commitUpdate_other db oid r _ oid2 hne

/-- Witness for C6: updating order 1 of the carve-back state to a single
line of two Pizzas leaves exactly one line item, total 21.98, and does not
touch the line items of order 2. -/
theorem replace_not_merge_witness :
    (orderLines (updateEndpoint dbCarve 1 (updReqPizza 2)).1 1).length = 1 ∧
      orderTotal (updateEndpoint dbCarve 1 (updReqPizza 2)).1 1 = some 2198 ∧
      orderLines (updateEndpoint dbCarve 1 (updReqPizza 2)).1 2 =
        orderLines dbCarve 2 := by
  have h := replace_not_merge dbCarve 1 (updReqPizza 2)
    [{ item_id := 1, count := 2 }] rfl rfl
  exact ⟨h.2.1, h.2.2.1, h.2.2.2 2 (by decide)⟩

/-- Claim C7: whenever a create or update request fails — field
validation, the order-items pipeline, the stock check, or the missing
order — the error is raised before any persistence and the returned state
is exactly the pre-request state; only fully validated requests commit. -/
theorem atomic_failure (db : DB) (r : CreateReq) (oid : Nat) (r2 : UpdateReq)
    (e e2 : VErr) :
    ((createEndpoint db r).2 = Except.error e → (createEndpoint db r).1 = db) ∧
    ((updateEndpoint db oid r2).2 = Except.error e2 →
      (updateEndpoint db oid r2).1 = db) := by
  constructor
  · intro h
    unfold createEndpoint at h ⊢
    by_cases hv : (validCustomerName r.customer_name && validPhone r.phone
        && validAddress r.address) = true
    · rw [if_pos hv] at h ⊢
      cases hr : runOrderItemsField db none r.order_items with
      | error e3 => rfl
      | ok ols =>
        rw [hr] at h
        exact Except.noConfusion h
    · rw [if_neg hv]
  · intro h
    unfold updateEndpoint at h ⊢
    cases hfo : findOrder db oid with
    | none => rfl
    | some o =>
      rw [hfo] at h
      by_cases hv : validUpdateFields r2 = true
      · rw [if_pos hv] at h ⊢
        cases hr : runOrderItemsField db (some oid) r2.order_items with
        | error e3 => rfl
        | ok ols =>
          rw [hr] at h
          exact Except.noConfusion h
      · rw [if_neg hv]

/-- Witness for C7: a create with a blank customer name and an update of a
nonexistent order both leave the state untouched. -/
theorem atomic_failure_witness :
    (createEndpoint dbPizza reqBlankName).1 = dbPizza ∧
      (updateEndpoint dbPizza 7 (updReqPizza 1)).1 = dbPizza :=
  ⟨(atomic_failure dbPizza reqBlankName 7 (updReqPizza 1)
      (VErr.validationError ("This field may not be blank.")) VErr.notFound).1 rfl,
   (atomic_failure dbPizza reqBlankName 7 (updReqPizza 1)
      (VErr.validationError ("This field may not be blank.")) VErr.notFound).2 rfl⟩

/-- Claim C8: `status` and `total_price` supplied by the caller never
influence the outcome of create or update — the endpoints are independent
of those request fields — and a committed create persists status `new`. -/
theorem read_only_fields_ignored (db : DB) (r : CreateReq) (oid : Nat)
    (r2 : UpdateReq) (s : Option String) (t : Option Int) (v : Nat) :
    createEndpoint db { r with status := s, total_price := t } =
      createEndpoint db r ∧
    updateEndpoint db oid { r2 with status := s, total_price := t } =
      updateEndpoint db oid r2 ∧
    ((createEndpoint db r).2 = Except.ok v →
      orderStatus (createEndpoint db r).1 (freshOrderId db) = some ("new")) := by
  refine ⟨?_, ?_, ?_⟩
  · cases r
    rfl
  · cases r2
    rfl
  · intro hok
    obtain ⟨ols, hr, heq, _⟩ := createEndpoint_ok db r v hok
    rw [heq]
    exact orderStatus_commitCreate db r _

/-- Witness for C8: supplying status `delivered` and a bogus total on the
Pizza-and-Burger create changes nothing, and the committed status is
`new`. -/
theorem read_only_fields_ignored_witness :
    createEndpoint dbPizza
        { reqTwoItems with status := some ("delivered"), total_price := some 9999 } =
      createEndpoint dbPizza reqTwoItems ∧
    orderStatus (createEndpoint dbPizza reqTwoItems).1 1 = some ("new") := by
  have h := read_only_fields_ignored dbPizza reqTwoItems 1 (updReqPizza 1)
    (some ("delivered")) (some 9999) 1
  exact ⟨h.1, h.2.2 rfl⟩
